import Mathlib

/-!
Free-fly camera controller: embedding and verified properties.

Shallow embedding of `src/js/camera-controller.js`, `src/js/view-manager.js`,
`src/js/ui-manager.js`, `src/js/utils.js` and `src/js/constants.js`.

JavaScript numbers are idealised as real numbers: every arithmetic operation is
the exact one, `Math.PI` is `Real.pi`, `Math.hypot` is the Euclidean norm and
`Math.atan2 y x` is the argument of `x + iy`.  Rounding, `NaN` and the
infinities are outside the model; where the source divides, the theorems below
state when the divisor is non-zero.
-/

namespace FlyCam

noncomputable section

/-! ## constants.js -/

/-- `LOOK_SPEED` of constants.js. -/
def LOOK_SPEED : ℝ := 0.002

/-- `INIT_SPEED` of constants.js. -/
def INIT_SPEED : ℝ := 0.01

/-- `MIN_SPEED` of constants.js. -/
def MIN_SPEED : ℝ := 0.01

/-- `MAX_SPEED` of constants.js. -/
def MAX_SPEED : ℝ := 1.0

/-- A named view of constants.js: `position: [x, y, z]`, `rotation: [pitchDeg, yawDeg]`. -/
structure View where
  position : ℝ × ℝ × ℝ
  rotation : ℝ × ℝ

/-- The table `VIEWS` of constants.js, as a lookup by property name. -/
def VIEWS (name : String) : Option View :=
  if name = "Start Point" then some ⟨(17.01, -0.73, 19.12), (-8.77, 74.56)⟩
  else if name = "home" then some ⟨(7.69, -1.87, 16.87), (-3.04, 77.42)⟩
  else if name = "explore" then some ⟨(2.00, 5.35, 3.26), (-17.03, -330.75)⟩
  else if name = "about" then some ⟨(7.19, 10.50, -38.12), (-16.80, -197.03)⟩
  else if name = "contact" then some ⟨(7.86, -0.96, 15.63), (-16.45, 196.94)⟩
  else none

/-! ## utils.js -/

/-- `clamp(val, min, max)` of utils.js: `Math.min(Math.max(val, min), max)`. -/
def clamp (val lo hi : ℝ) : ℝ := min (max val lo) hi

/-- `toRad(deg)` of utils.js: `deg * (Math.PI / 180)`. -/
def toRad (deg : ℝ) : ℝ := deg * (Real.pi / 180)

/-! ## Built-ins and the rendering engine's vector type -/

/-- `Math.hypot(x, y)`. -/
def hypot (x y : ℝ) : ℝ := Real.sqrt (x ^ 2 + y ^ 2)

/-- `Math.atan2(y, x)`: the angle of the point `(x, y)`, with `atan2(0, 0) = 0`. -/
def atan2 (y x : ℝ) : ℝ := Complex.arg ⟨x, y⟩

/-- A `THREE.Vector3`. -/
@[ext]
structure Vector3 where
  x : ℝ
  y : ℝ
  z : ℝ

namespace Vector3

/-- `new THREE.Vector3()`. -/
def zero : Vector3 := ⟨0, 0, 0⟩

/-- Modelled from the spec: `Vector3.add` of the external rendering engine
(three.js is not under src/), componentwise sum. -/
def add (a b : Vector3) : Vector3 := ⟨a.x + b.x, a.y + b.y, a.z + b.z⟩

/-- Modelled from the spec: `Vector3.sub` of the external rendering engine,
componentwise difference. -/
def sub (a b : Vector3) : Vector3 := ⟨a.x - b.x, a.y - b.y, a.z - b.z⟩

/-- Modelled from the spec: `Vector3.multiplyScalar` of the external rendering
engine. -/
def multiplyScalar (a : Vector3) (s : ℝ) : Vector3 := ⟨a.x * s, a.y * s, a.z * s⟩

/-- Modelled from the spec: `Vector3.divideScalar` of the external rendering
engine, `multiplyScalar(1 / s)`. -/
def divideScalar (a : Vector3) (s : ℝ) : Vector3 := a.multiplyScalar (1 / s)

/-- Modelled from the spec: `Vector3.lengthSq` of the external rendering engine. -/
def lengthSq (a : Vector3) : ℝ := a.x * a.x + a.y * a.y + a.z * a.z

/-- Modelled from the spec: `Vector3.length` of the external rendering engine,
the Euclidean length. -/
def length (a : Vector3) : ℝ := Real.sqrt (a.x * a.x + a.y * a.y + a.z * a.z)

/-- Modelled from the spec: `Vector3.normalize` of the external rendering
engine, `divideScalar(length() || 1)`: the zero vector stays zero. -/
def normalize (a : Vector3) : Vector3 :=
  a.divideScalar (if a.length = 0 then 1 else a.length)

/-- Modelled from the spec: `Vector3.crossVectors(a, b)` of the external
rendering engine, the cross product `a × b`. -/
def crossVectors (a b : Vector3) : Vector3 :=
  ⟨a.y * b.z - a.z * b.y, a.z * b.x - a.x * b.z, a.x * b.y - a.y * b.x⟩

end Vector3

/-- A 2D vector `{ x, y }` (the joystick vector, the thumb's translate offset). -/
@[ext]
structure Vec2 where
  x : ℝ
  y : ℝ

/-- A `THREE.Object3D` of the rig, as far as the controller touches it:
its position and its Euler rotation. -/
structure Object3D where
  position : Vector3
  rotation : Vector3

/-- A DOM `Touch`, as far as the handlers read it. -/
structure Touch where
  identifier : Int
  pageX : ℝ
  pageY : ℝ

/-- A `DOMRect` as returned by `getBoundingClientRect()`. -/
structure Rect where
  left : ℝ
  top : ℝ
  width : ℝ
  height : ℝ

/-- `DOMRect.right`. -/
def Rect.right (r : Rect) : ℝ := r.left + r.width

/-- `DOMRect.bottom`. -/
def Rect.bottom (r : Rect) : ℝ := r.top + r.height

/-- The layout the joystick code reads from the document:
`joystickBase.getBoundingClientRect()` and `joystickThumb.offsetWidth`
(an integer number of pixels). -/
structure Layout where
  baseRect : Rect
  thumbOffsetWidth : ℕ

/-! ## camera-controller.js: state -/

/-- The record `this.input` of `CameraController`. -/
structure InputState where
  keys : String → Bool
  speed : ℝ
  lookSpeed : ℝ
  pitch : ℝ
  yaw : ℝ
  rotating : Bool
  touchPrevX : ℝ
  touchPrevY : ℝ
  joystickId : Option Int
  joystickVec : Vec2

/-- The mutable state of a `CameraController`: the input record, the two rig
nodes and the thumb's `translate(x px, y px)` style. -/
structure CameraController where
  input : InputState
  yawRig : Object3D
  pitchRig : Object3D
  thumbTransform : Vec2

/-- The state built by the constructor of `CameraController`. -/
def CameraController.new : CameraController where
  input :=
    { keys := fun _ => false
      speed := INIT_SPEED
      lookSpeed := LOOK_SPEED
      pitch := 0
      yaw := 0
      rotating := false
      touchPrevX := 0
      touchPrevY := 0
      joystickId := none
      joystickVec := ⟨0, 0⟩ }
  yawRig := ⟨⟨2, 2, 5⟩, ⟨0, 0, 0⟩⟩
  pitchRig := ⟨⟨0, 0, 0⟩, ⟨0, 0, 0⟩⟩
  thumbTransform := ⟨0, 0⟩

/-! ## camera-controller.js: event handlers -/

/-- The pitch clamp written inline in both look handlers:
`Math.max(-Math.PI / 2, Math.min(Math.PI / 2, pitch))`. -/
def clampPitch (pitch : ℝ) : ℝ := max (-Real.pi / 2) (min (Real.pi / 2) pitch)

/-- The `mousemove` handler (camera-controller.js 76-83). -/
def mousemove (c : CameraController) (movementX movementY : ℝ) : CameraController :=
  if !c.input.rotating then c
  else
    let yaw := c.input.yaw - movementX * c.input.lookSpeed
    let pitch := clampPitch (c.input.pitch - movementY * c.input.lookSpeed)
    { c with
      input := { c.input with yaw := yaw, pitch := pitch }
      yawRig := { c.yawRig with rotation := { c.yawRig.rotation with y := yaw } }
      pitchRig := { c.pitchRig with rotation := { c.pitchRig.rotation with x := pitch } } }

/-- The `wheel` handler (camera-controller.js 86-89). -/
def wheel (c : CameraController) (deltaY : ℝ) : CameraController :=
  let delta := -deltaY * 0.002
  { c with input := { c.input with speed := clamp (c.input.speed + delta) MIN_SPEED MAX_SPEED } }

/-- `isJoystickTouch(touches)` (camera-controller.js 145-155). -/
def isJoystickTouch (l : Layout) (c : CameraController) (touches : List Touch) : Bool :=
  if c.input.joystickId ≠ none then true
  else
    touches.any fun t =>
      decide (t.pageX ≥ l.baseRect.left ∧ t.pageX ≤ l.baseRect.right ∧
        t.pageY ≥ l.baseRect.top ∧ t.pageY ≤ l.baseRect.bottom)

/-- The `touchmove` handler of the interactive surface (camera-controller.js
114-128).  `none` is the `TypeError` of reading `e.touches[0].pageX` when the
look branch is taken with an empty `touches` list. -/
def touchmove (l : Layout) (c : CameraController) (touches : List Touch) :
    Option CameraController :=
  if c.input.rotating && !isJoystickTouch l c touches then
    match touches with
    | [] => none
    | touch :: _ =>
      let dx := touch.pageX - c.input.touchPrevX
      let dy := touch.pageY - c.input.touchPrevY
      let yaw := c.input.yaw - dx * c.input.lookSpeed
      let pitch := clampPitch (c.input.pitch - dy * c.input.lookSpeed)
      some { c with
        input := { c.input with
          yaw := yaw, pitch := pitch, touchPrevX := touch.pageX, touchPrevY := touch.pageY }
        yawRig := { c.yawRig with rotation := { c.yawRig.rotation with y := yaw } }
        pitchRig := { c.pitchRig with rotation := { c.pitchRig.rotation with x := pitch } } }
  else some c

/-- `resetThumb()` (camera-controller.js 231-235). -/
def resetThumb (c : CameraController) : CameraController :=
  { c with
    thumbTransform := ⟨0, 0⟩
    input := { c.input with joystickVec := { c.input.joystickVec with x := 0, y := 0 } } }

/-- The release loop shared, in the same words, by both `touchend` handlers:
the first changed touch whose identifier is `input.joystickId` resets the thumb
and frees the identifier, then the loop breaks. -/
def releaseJoystick (c : CameraController) : List Touch → CameraController
  | [] => c
  | t :: ts =>
    if some t.identifier = c.input.joystickId then
      let c1 := resetThumb c
      { c1 with input := { c1.input with joystickId := none } }
    else releaseJoystick c ts

/-- The `touchend` handler of the interactive surface (camera-controller.js
129-142). -/
def touchendSurface (c : CameraController) (changedTouches : List Touch) : CameraController :=
  let keys1 := Function.update c.input.keys "KeyE" false
  let keys2 := Function.update keys1 "KeyQ" false
  releaseJoystick { c with input := { c.input with rotating := false, keys := keys2 } }
    changedTouches

/-- The `touchend` handler of the joystick base (camera-controller.js 199-208). -/
def touchendJoystickBase (c : CameraController) (changedTouches : List Touch) :
    CameraController :=
  releaseJoystick c changedTouches

/-- `moveThumb(pageX, pageY)` (camera-controller.js 211-229). -/
def moveThumb (l : Layout) (c : CameraController) (pageX pageY : ℝ) : CameraController :=
  let baseRect := l.baseRect
  let centerX := baseRect.left + baseRect.width / 2
  let centerY := baseRect.top + baseRect.height / 2
  let dx := pageX - centerX
  let dy := pageY - centerY
  let maxDist := (baseRect.width / 2) - ((l.thumbOffsetWidth : ℝ) / 2)
  let dist := hypot dx dy
  let clampedDist := if dist > maxDist then maxDist else dist
  let angle := atan2 dy dx
  let thumbX := clampedDist * Real.cos angle
  let thumbY := clampedDist * Real.sin angle
  { c with
    thumbTransform := ⟨thumbX, thumbY⟩
    input := { c.input with joystickVec := ⟨thumbX / maxDist, -(thumbY / maxDist)⟩ } }

/-- The local `maxDist` of `moveThumb`:
`(baseRect.width / 2) - (this.joystickThumb.offsetWidth / 2)`. -/
def Layout.maxDist (l : Layout) : ℝ :=
  (l.baseRect.width / 2) - ((l.thumbOffsetWidth : ℝ) / 2)

/-- The local `centerX` of `moveThumb`. -/
def Layout.centerX (l : Layout) : ℝ := l.baseRect.left + l.baseRect.width / 2

/-- The local `centerY` of `moveThumb`. -/
def Layout.centerY (l : Layout) : ℝ := l.baseRect.top + l.baseRect.height / 2

/-! ## camera-controller.js: per-frame update -/

/-- The vector `move` accumulated by `updateFreeFly` before its final guard
(camera-controller.js 242-265).  `dir` is what `camera.getWorldDirection`
writes into `forward`, `up` is `camera.up`. -/
def freeFlyMove (input : InputState) (dir up : Vector3) : Vector3 :=
  let forward := dir.normalize
  let right := (Vector3.crossVectors forward up).normalize
  let move := Vector3.zero
  let move := if input.keys "KeyW" || input.keys "ArrowUp" then move.add forward else move
  let move := if input.keys "KeyS" || input.keys "ArrowDown" then move.sub forward else move
  let move := if input.keys "KeyD" || input.keys "ArrowRight" then move.add right else move
  let move := if input.keys "KeyA" || input.keys "ArrowLeft" then move.sub right else move
  let move := if input.keys "KeyE" then { move with y := move.y + 1 } else move
  let move := if input.keys "KeyQ" then { move with y := move.y - 1 } else move
  let move :=
    if |input.joystickVec.x| > 0.01 then move.add (right.multiplyScalar input.joystickVec.x)
    else move
  let move :=
    if |input.joystickVec.y| > 0.01 then move.add (forward.multiplyScalar input.joystickVec.y)
    else move
  move

/-- `updateFreeFly()` (camera-controller.js 241-271). -/
def updateFreeFly (c : CameraController) (dir up : Vector3) : CameraController :=
  let move := freeFlyMove c.input dir up
  if move.lengthSq > 0 then
    let move := move.normalize.multiplyScalar c.input.speed
    { c with yawRig := { c.yawRig with position := c.yawRig.position.add move } }
  else c

/-- `update(delta)` (camera-controller.js 237-239): `delta` is not used. -/
def update (c : CameraController) (_delta : ℝ) (dir up : Vector3) : CameraController :=
  updateFreeFly c dir up

/-- The displacement one `update` call adds to `yawRig.position`. -/
def displacement (c : CameraController) (dir up : Vector3) : Vector3 :=
  (update c 0 dir up).yawRig.position.sub c.yawRig.position

/-! ## ui-manager.js -/

/-- The `input` handler of the speed slider (ui-manager.js 27-31); `val` is
`parseFloat(this.speedSlider.value)`. -/
def speedSliderInput (c : CameraController) (val : ℝ) : CameraController :=
  { c with input := { c.input with speed := val } }

/-! ## view-manager.js -/

/-- The object `start` / `target` of `goToView`: a pose of the rig. -/
structure Pose where
  px : ℝ
  py : ℝ
  pz : ℝ
  ry : ℝ
  rx : ℝ

/-- The tween `goToView` hands to the animation library: the object being
animated and the values it is animated to. -/
structure Tween where
  start : Pose
  target : Pose

/-- `goToView(name)` (view-manager.js 11-50) up to the call of `gsap.to`:
`none` when the guard `if (!this.views[name]) return` fires, otherwise the
tween that is started.  The call itself writes nothing to the controller. -/
def goToView (c : CameraController) (views : String → Option View) (name : String) :
    Option Tween :=
  match views name with
  | none => none
  | some view =>
    let position := view.position
    let rotation := view.rotation
    some
      { start :=
          { px := c.yawRig.position.x
            py := c.yawRig.position.y
            pz := c.yawRig.position.z
            ry := c.yawRig.rotation.y
            rx := c.pitchRig.rotation.x }
        target :=
          { px := position.1
            py := position.2.1
            pz := position.2.2
            ry := toRad rotation.2
            rx := toRad rotation.1 } }

/-- The `onUpdate` callback of the tween, at the current values of `start`. -/
def onUpdate (c : CameraController) (start : Pose) : CameraController :=
  { c with
    yawRig :=
      { position := ⟨start.px, start.py, start.pz⟩
        rotation := { c.yawRig.rotation with y := start.ry } }
    pitchRig := { c.pitchRig with rotation := { c.pitchRig.rotation with x := start.rx } } }

/-- The `onComplete` callback of the tween, at the current values of `start`. -/
def onComplete (c : CameraController) (start : Pose) : CameraController :=
  { c with input := { c.input with yaw := start.ry, pitch := start.rx } }

/-- Modelled from the spec: the animation collaborator (gsap is not under
src/) interpolates every animated property from its start value to its target
value; `r` is the eased progress, `0` at the start and `1` at the end. -/
def Tween.valuesAt (t : Tween) (r : ℝ) : Pose :=
  { px := t.start.px + (t.target.px - t.start.px) * r
    py := t.start.py + (t.target.py - t.start.py) * r
    pz := t.start.pz + (t.target.pz - t.start.pz) * r
    ry := t.start.ry + (t.target.ry - t.start.ry) * r
    rx := t.start.rx + (t.target.rx - t.start.rx) * r }

/-- Modelled from the spec: a whole transition as the animation collaborator
runs it: the per-tick callback at each eased progress of `ticks`, then the
last tick at progress `1` followed by the completion callback. -/
def Tween.run (t : Tween) (c : CameraController) (ticks : List ℝ) : CameraController :=
  let c1 := ticks.foldl (fun s r => onUpdate s (t.valuesAt r)) c
  onComplete (onUpdate c1 (t.valuesAt 1)) (t.valuesAt 1)

/-- The effect of `goToView(name)` on the controller once the animation
library has run the tween it started, if any. -/
def goToViewEffect (c : CameraController) (views : String → Option View) (name : String)
    (ticks : List ℝ) : CameraController :=
  match goToView c views name with
  | none => c
  | some t => t.run c ticks

/-- The coefficient with which `updateFreeFly` adds `forward` to `move`
(camera-controller.js 250-251 and 263-265): `+1` for KeyW or ArrowUp, `-1` for
KeyS or ArrowDown, and the joystick's `y` when it is outside the dead zone. -/
def forwardAmount (input : InputState) : ℝ :=
  (if input.keys "KeyW" || input.keys "ArrowUp" then 1 else 0)
    - (if input.keys "KeyS" || input.keys "ArrowDown" then 1 else 0)
    + (if |input.joystickVec.y| > 0.01 then input.joystickVec.y else 0)

/-! ## index.js -/

/-- The start-pose placement of `init` (index.js 27-44): the rig and the
stored angles are set, without a tween, to the view `VIEWS['Start Point']`. -/
def placeStartPose (c : CameraController) : CameraController :=
  match VIEWS "Start Point" with
  | none => c
  | some startView =>
    let x := startView.position.1
    let y := startView.position.2.1
    let z := startView.position.2.2
    let rotXdeg := startView.rotation.1
    let rotYdeg := startView.rotation.2
    let yawRig : Object3D :=
      { position := ⟨x, y, z⟩, rotation := { c.yawRig.rotation with y := toRad rotYdeg } }
    let pitchRig : Object3D :=
      { c.pitchRig with rotation := { c.pitchRig.rotation with x := toRad rotXdeg } }
    { c with
      yawRig := yawRig
      pitchRig := pitchRig
      input := { c.input with yaw := yawRig.rotation.y, pitch := pitchRig.rotation.x } }

/-- The invariant the data model states for the stored pitch:
`input.pitch` lies in [-π/2, π/2]. -/
def pitchInRange (c : CameraController) : Prop :=
  -Real.pi / 2 ≤ c.input.pitch ∧ c.input.pitch ≤ Real.pi / 2

/-! ## Auxiliary lemmas -/

theorem half_pi_pos : 0 < Real.pi / 2 := by
  have := Real.pi_pos
  linarith

theorem clampPitch_lower (p : ℝ) : -Real.pi / 2 ≤ clampPitch p := by
  unfold clampPitch
  exact le_max_left _ _

theorem clampPitch_upper (p : ℝ) : clampPitch p ≤ Real.pi / 2 := by
  unfold clampPitch
  have := half_pi_pos
  exact max_le (by linarith) (min_le_left _ _)

theorem clampPitch_of_mem (p : ℝ) (h1 : -Real.pi / 2 ≤ p) (h2 : p ≤ Real.pi / 2) :
    clampPitch p = p := by
  unfold clampPitch
  rw [min_eq_right h2, max_eq_right h1]

theorem clampPitch_of_ge (p : ℝ) (h : Real.pi / 2 ≤ p) : clampPitch p = Real.pi / 2 := by
  unfold clampPitch
  have := half_pi_pos
  rw [min_eq_left h, max_eq_right (by linarith)]

theorem clampPitch_of_le (p : ℝ) (h : p ≤ -Real.pi / 2) : clampPitch p = -Real.pi / 2 := by
  unfold clampPitch
  have := half_pi_pos
  rw [min_eq_right (by linarith), max_eq_left h]

theorem clampPitch_eq_clamp (p : ℝ) : clampPitch p = clamp p (-Real.pi / 2) (Real.pi / 2) := by
  unfold clampPitch clamp
  have := half_pi_pos
  rcases le_total p (Real.pi / 2) with h | h
  · rw [min_eq_right h, max_comm, min_eq_left (max_le h (by linarith))]
  · rw [min_eq_left h, max_eq_right (by linarith), max_eq_left (by linarith), min_eq_right h]

theorem clamp_bounds (v lo hi : ℝ) (h : lo ≤ hi) : lo ≤ clamp v lo hi ∧ clamp v lo hi ≤ hi := by
  unfold clamp
  exact ⟨le_min (le_max_right _ _) h, min_le_right _ _⟩

/-! ## Pitch and look handlers -/

/-- C2: after the mousemove look handler runs with `input.rotating` true, and
after the look branch of touchmove runs (rotating, no joystick touch, a first
touch present), the stored pitch is the inline clamp of the adjusted pitch and
lies in [-π/2, π/2], whatever the prior pitch, lookSpeed and pointer delta.
The clamp saturates (a value beyond a bound becomes that bound) and is
idempotent. -/
theorem look_pitch_clamped (l : Layout) (c : CameraController) (movementX movementY : ℝ)
    (touch : Touch) (rest : List Touch) (hrot : c.input.rotating = true) :
    ((mousemove c movementX movementY).input.pitch
        = clampPitch (c.input.pitch - movementY * c.input.lookSpeed) ∧
      -Real.pi / 2 ≤ (mousemove c movementX movementY).input.pitch ∧
      (mousemove c movementX movementY).input.pitch ≤ Real.pi / 2) ∧
    (isJoystickTouch l c (touch :: rest) = false →
      ∃ c2, touchmove l c (touch :: rest) = some c2 ∧
        c2.input.pitch
          = clampPitch (c.input.pitch - (touch.pageY - c.input.touchPrevY) * c.input.lookSpeed) ∧
        -Real.pi / 2 ≤ c2.input.pitch ∧ c2.input.pitch ≤ Real.pi / 2) ∧
    (∀ p : ℝ, Real.pi / 2 ≤ p → clampPitch p = Real.pi / 2) ∧
    (∀ p : ℝ, p ≤ -Real.pi / 2 → clampPitch p = -Real.pi / 2) ∧
    (∀ p : ℝ, clampPitch (clampPitch p) = clampPitch p) := by
  refine ⟨?_, ?_, clampPitch_of_ge, clampPitch_of_le, ?_⟩
  · have hp : (mousemove c movementX movementY).input.pitch
        = clampPitch (c.input.pitch - movementY * c.input.lookSpeed) := by
      simp [mousemove, hrot]
    rw [hp]
    exact ⟨rfl, clampPitch_lower _, clampPitch_upper _⟩
  · intro hj
    refine ⟨_, by simp [touchmove, hrot, hj]; rfl, ?_, ?_, ?_⟩
    · rfl
    · exact clampPitch_lower _
    · exact clampPitch_upper _
  · intro p
    exact clampPitch_of_mem _ (clampPitch_lower p) (clampPitch_upper p)

/-- Witness of C2: a rotating controller, a pointer delta of a million pixels
and a touch far from the joystick base. -/
theorem look_pitch_clamped_witness :
    (-Real.pi / 2 ≤
        (mousemove { CameraController.new with
          input := { CameraController.new.input with rotating := true } } 0 1000000).input.pitch ∧
      (mousemove { CameraController.new with
          input := { CameraController.new.input with rotating := true } } 0 1000000).input.pitch
        ≤ Real.pi / 2) ∧
    ∃ c2, touchmove ⟨⟨0, 0, 10, 10⟩, 4⟩
        { CameraController.new with
          input := { CameraController.new.input with rotating := true } }
        [⟨0, 50, 50⟩] = some c2 ∧
      -Real.pi / 2 ≤ c2.input.pitch ∧ c2.input.pitch ≤ Real.pi / 2 := by
  have h := look_pitch_clamped ⟨⟨0, 0, 10, 10⟩, 4⟩
    { CameraController.new with input := { CameraController.new.input with rotating := true } }
    0 1000000 ⟨0, 50, 50⟩ [] rfl
  refine ⟨h.1.2, ?_⟩
  have hj : isJoystickTouch ⟨⟨0, 0, 10, 10⟩, 4⟩
      { CameraController.new with
        input := { CameraController.new.input with rotating := true } }
      [⟨0, 50, 50⟩] = false := by
    simp [isJoystickTouch, CameraController.new, Rect.right, Rect.bottom]
    norm_num
  obtain ⟨c2, h1, _, h3, h4⟩ := h.2.1 hj
  exact ⟨c2, h1, h3, h4⟩

/-! ## Speed -/

/-- Counterexample to C3: the slider handler stores the parsed value as it is;
with the value 2 the speed afterwards is 2, above `MAX_SPEED`. -/
theorem slider_speed_out_of_range :
    ¬ (MIN_SPEED ≤ (speedSliderInput CameraController.new 2).input.speed ∧
       (speedSliderInput CameraController.new 2).input.speed ≤ MAX_SPEED) := by
  rintro ⟨_, h⟩
  norm_num [speedSliderInput, MAX_SPEED] at h

/-- C3 (amended): after the wheel handler, for any `deltaY` and any prior
speed, `input.speed` is `clamp(speed - deltaY * 0.002, MIN_SPEED, MAX_SPEED)`
and lies in [MIN_SPEED, MAX_SPEED] = [0.01, 1.0]; after the slider's input
handler `input.speed` is the parsed slider value itself, so it lies in that
range exactly when the slider value does. -/
theorem speed_after_adjustment (c : CameraController) (deltaY val : ℝ) :
    MIN_SPEED = 0.01 ∧ MAX_SPEED = 1.0 ∧
    (wheel c deltaY).input.speed
      = clamp (c.input.speed + -deltaY * 0.002) MIN_SPEED MAX_SPEED ∧
    MIN_SPEED ≤ (wheel c deltaY).input.speed ∧ (wheel c deltaY).input.speed ≤ MAX_SPEED ∧
    (speedSliderInput c val).input.speed = val ∧
    ((MIN_SPEED ≤ (speedSliderInput c val).input.speed ∧
        (speedSliderInput c val).input.speed ≤ MAX_SPEED) ↔
      (MIN_SPEED ≤ val ∧ val ≤ MAX_SPEED)) := by
  have hb := clamp_bounds (c.input.speed + -deltaY * 0.002) MIN_SPEED MAX_SPEED
    (by norm_num [MIN_SPEED, MAX_SPEED])
  exact ⟨rfl, rfl, rfl, hb.1, hb.2, rfl, Iff.rfl⟩

/-! ## Releasing the joystick -/

theorem releaseJoystick_owner (c : CameraController) (id : Int)
    (hid : c.input.joystickId = some id) (touches : List Touch)
    (hmem : ∃ t ∈ touches, t.identifier = id) :
    (releaseJoystick c touches).input.joystickVec = ⟨0, 0⟩ ∧
    (releaseJoystick c touches).input.joystickId = none ∧
    (releaseJoystick c touches).thumbTransform = ⟨0, 0⟩ := by
  induction touches with
  | nil =>
    obtain ⟨t, ht, _⟩ := hmem
    cases ht
  | cons t ts ih =>
    by_cases h : some t.identifier = c.input.joystickId
    · simp [releaseJoystick, h, resetThumb]
    · have hne : t.identifier ≠ id := by
        intro he
        exact h (by rw [hid, he])
      have hmem2 : ∃ u ∈ ts, u.identifier = id := by
        obtain ⟨u, hu, hui⟩ := hmem
        rcases List.mem_cons.mp hu with rfl | hu2
        · exact absurd hui hne
        · exact ⟨u, hu2, hui⟩
      simpa [releaseJoystick, h] using ih hmem2

/-- C5: when `input.joystickId` holds a touch identifier and a touchend event
(on the interactive surface or on the joystick base) carries a changed touch
with that identifier, afterwards `input.joystickVec` is (0, 0) and
`input.joystickId` is null (and the thumb is back at the centre), whatever
other touches the event lists. -/
theorem touchend_releases_joystick (c : CameraController) (id : Int)
    (changedTouches : List Touch) (hid : c.input.joystickId = some id)
    (hmem : ∃ t ∈ changedTouches, t.identifier = id) :
    ((touchendSurface c changedTouches).input.joystickVec = ⟨0, 0⟩ ∧
      (touchendSurface c changedTouches).input.joystickId = none ∧
      (touchendSurface c changedTouches).thumbTransform = ⟨0, 0⟩) ∧
    ((touchendJoystickBase c changedTouches).input.joystickVec = ⟨0, 0⟩ ∧
      (touchendJoystickBase c changedTouches).input.joystickId = none ∧
      (touchendJoystickBase c changedTouches).thumbTransform = ⟨0, 0⟩) := by
  constructor
  · unfold touchendSurface
    exact releaseJoystick_owner _ id (by simpa using hid) changedTouches hmem
  · unfold touchendJoystickBase
    exact releaseJoystick_owner c id hid changedTouches hmem

/-- Witness of C5: the joystick is owned by touch 7 and deflected; the event
lists touch 3 before touch 7. -/
theorem touchend_releases_joystick_witness :
    (touchendSurface
        { CameraController.new with
          input := { CameraController.new.input with
            joystickId := some 7, joystickVec := ⟨1, 0⟩ } }
        [⟨3, 0, 0⟩, ⟨7, 1, 1⟩]).input.joystickVec = ⟨0, 0⟩ ∧
    (touchendSurface
        { CameraController.new with
          input := { CameraController.new.input with
            joystickId := some 7, joystickVec := ⟨1, 0⟩ } }
        [⟨3, 0, 0⟩, ⟨7, 1, 1⟩]).input.joystickId = none :=
  have h := (touchend_releases_joystick
    { CameraController.new with
      input := { CameraController.new.input with
        joystickId := some 7, joystickVec := ⟨1, 0⟩ } }
    7 [⟨3, 0, 0⟩, ⟨7, 1, 1⟩] rfl ⟨⟨7, 1, 1⟩, by simp, rfl⟩).1
  ⟨h.1, h.2.1⟩

/-! ## Mouse look -/

/-- C8: with `input.rotating` true and the stored pitch within [-π/2, π/2], a
mousemove with movement delta (dx, dy) leaves `input.yaw` at the prior yaw
minus `dx * lookSpeed` and `input.pitch` at
`clamp(prior pitch - dy * lookSpeed, -π/2, π/2)`, and writes both angles into
the rig; with dx = 100, dy = 0 and lookSpeed = 0.002 the yaw decreases by 0.2
and the pitch is unchanged.  With `input.rotating` false the handler changes
nothing. -/
theorem mousemove_look (c : CameraController) (dx dy : ℝ) :
    (c.input.rotating = true →
      -Real.pi / 2 ≤ c.input.pitch → c.input.pitch ≤ Real.pi / 2 →
      (mousemove c dx dy).input.yaw = c.input.yaw - dx * c.input.lookSpeed ∧
      (mousemove c dx dy).input.pitch
        = clamp (c.input.pitch - dy * c.input.lookSpeed) (-Real.pi / 2) (Real.pi / 2) ∧
      (mousemove c dx dy).yawRig.rotation.y = (mousemove c dx dy).input.yaw ∧
      (mousemove c dx dy).pitchRig.rotation.x = (mousemove c dx dy).input.pitch ∧
      (dx = 100 → dy = 0 → c.input.lookSpeed = 0.002 →
        (mousemove c dx dy).input.yaw = c.input.yaw - 0.2 ∧
        (mousemove c dx dy).input.pitch = c.input.pitch)) ∧
    (c.input.rotating = false → mousemove c dx dy = c) := by
  constructor
  · intro hrot h1 h2
    have hy : (mousemove c dx dy).input.yaw = c.input.yaw - dx * c.input.lookSpeed := by
      simp [mousemove, hrot]
    have hp : (mousemove c dx dy).input.pitch
        = clampPitch (c.input.pitch - dy * c.input.lookSpeed) := by
      simp [mousemove, hrot]
    refine ⟨hy, ?_, ?_, ?_, ?_⟩
    · rw [hp, clampPitch_eq_clamp]
    · simp [mousemove, hrot]
    · simp [mousemove, hrot]
    · intro hdx hdy hls
      constructor
      · rw [hy, hdx, hls]
        norm_num
      · rw [hp, hdy, zero_mul, sub_zero]
        exact clampPitch_of_mem _ h1 h2
  · intro hrot
    simp [mousemove, hrot]

/-- Witness of C8: the constructed controller with a look gesture active
(lookSpeed 0.002, pitch 0) and the delta (100, 0). -/
theorem mousemove_look_witness :
    (mousemove { CameraController.new with
        input := { CameraController.new.input with rotating := true } } 100 0).input.yaw
      = 0 - 0.2 ∧
    (mousemove { CameraController.new with
        input := { CameraController.new.input with rotating := true } } 100 0).input.pitch
      = 0 ∧
    mousemove CameraController.new 100 0 = CameraController.new :=
  have hpi := half_pi_pos
  ⟨((mousemove_look
      { CameraController.new with
        input := { CameraController.new.input with rotating := true } } 100 0).1 rfl
      (by show -Real.pi / 2 ≤ (0 : ℝ); linarith)
      (by show (0 : ℝ) ≤ Real.pi / 2; linarith)).2.2.2.2 rfl rfl rfl |>.1,
   ((mousemove_look
      { CameraController.new with
        input := { CameraController.new.input with rotating := true } } 100 0).1 rfl
      (by show -Real.pi / 2 ≤ (0 : ℝ); linarith)
      (by show (0 : ℝ) ≤ Real.pi / 2; linarith)).2.2.2.2 rfl rfl rfl |>.2,
   (mousemove_look CameraController.new 100 0).2 rfl⟩

/-! ## Named views -/

/-- C9: for a name that is not in the views table given to ViewManager,
`goToView(name)` starts no transition, and the controller is left as it was
however long the animation library runs afterwards: `yawRig.position`,
`yawRig.rotation.y`, `pitchRig.rotation.x`, `input.yaw` and `input.pitch` keep
their prior values. -/
theorem goToView_unknown_name (c : CameraController) (views : String → Option View)
    (name : String) (ticks : List ℝ) (habsent : views name = none) :
    goToView c views name = none ∧
    (goToViewEffect c views name ticks).yawRig.position = c.yawRig.position ∧
    (goToViewEffect c views name ticks).yawRig.rotation.y = c.yawRig.rotation.y ∧
    (goToViewEffect c views name ticks).pitchRig.rotation.x = c.pitchRig.rotation.x ∧
    (goToViewEffect c views name ticks).input.yaw = c.input.yaw ∧
    (goToViewEffect c views name ticks).input.pitch = c.input.pitch := by
  have h : goToView c views name = none := by
    simp [goToView, habsent]
  simp [goToViewEffect, h]

/-- Witness of C9: the name "lobby" is not in `VIEWS`. -/
theorem goToView_unknown_name_witness :
    goToView CameraController.new VIEWS "lobby" = none ∧
    (goToViewEffect CameraController.new VIEWS "lobby" [0.5]).yawRig.position
      = CameraController.new.yawRig.position :=
  have h := goToView_unknown_name CameraController.new VIEWS "lobby" [0.5]
    (by simp [VIEWS])
  ⟨h.1, h.2.1⟩

/-- A name of the table does start a transition, and the transition ends at
the view's pose: the guard of `goToView` is not always taken. -/
theorem goToView_home_moves :
    (goToViewEffect CameraController.new VIEWS "home" []).yawRig.position
      = ⟨7.69, -1.87, 16.87⟩ := by
  simp [goToViewEffect, goToView, VIEWS, Tween.run, Tween.valuesAt, onUpdate, onComplete]

/-! ## Vector lemmas -/

theorem Vector3.lengthSq_nonneg (a : Vector3) : 0 ≤ a.lengthSq := by
  unfold Vector3.lengthSq
  nlinarith [mul_self_nonneg a.x, mul_self_nonneg a.y, mul_self_nonneg a.z]

theorem Vector3.length_eq_sqrt (a : Vector3) : a.length = Real.sqrt a.lengthSq := rfl

theorem Vector3.length_nonneg (a : Vector3) : 0 ≤ a.length := Real.sqrt_nonneg _

theorem Vector3.length_eq_zero_iff (a : Vector3) : a.length = 0 ↔ a.lengthSq = 0 := by
  rw [Vector3.length_eq_sqrt, Real.sqrt_eq_zero a.lengthSq_nonneg]

theorem Vector3.length_pos_iff (a : Vector3) : 0 < a.length ↔ 0 < a.lengthSq := by
  rw [Vector3.length_eq_sqrt, Real.sqrt_pos]

theorem Vector3.lengthSq_eq_zero_iff (a : Vector3) : a.lengthSq = 0 ↔ a = Vector3.zero := by
  constructor
  · intro h
    unfold Vector3.lengthSq at h
    have hx : a.x = 0 := by nlinarith [mul_self_nonneg a.x, mul_self_nonneg a.y, mul_self_nonneg a.z]
    have hy : a.y = 0 := by nlinarith [mul_self_nonneg a.x, mul_self_nonneg a.y, mul_self_nonneg a.z]
    have hz : a.z = 0 := by nlinarith [mul_self_nonneg a.x, mul_self_nonneg a.y, mul_self_nonneg a.z]
    exact Vector3.ext hx hy hz
  · intro h
    rw [h]
    simp [Vector3.lengthSq, Vector3.zero]

theorem Vector3.length_multiplyScalar (a : Vector3) (s : ℝ) :
    (a.multiplyScalar s).length = |s| * a.length := by
  unfold Vector3.length Vector3.multiplyScalar
  have h : a.x * s * (a.x * s) + a.y * s * (a.y * s) + a.z * s * (a.z * s)
      = s ^ 2 * (a.x * a.x + a.y * a.y + a.z * a.z) := by ring
  show Real.sqrt (a.x * s * (a.x * s) + a.y * s * (a.y * s) + a.z * s * (a.z * s)) = _
  rw [h, Real.sqrt_mul (sq_nonneg s), Real.sqrt_sq_eq_abs]

theorem Vector3.length_normalize (a : Vector3) (h : a.length ≠ 0) : a.normalize.length = 1 := by
  have hpos : 0 < a.length := lt_of_le_of_ne a.length_nonneg (Ne.symm h)
  unfold Vector3.normalize Vector3.divideScalar
  rw [if_neg h, Vector3.length_multiplyScalar, abs_of_pos (by positivity)]
  field_simp

theorem Vector3.normalize_of_length_one (a : Vector3) (h : a.length = 1) : a.normalize = a := by
  unfold Vector3.normalize Vector3.divideScalar Vector3.multiplyScalar
  rw [h]
  simp

theorem Vector3.normalize_of_length_zero (a : Vector3) (h : a.length = 0) :
    a.normalize = Vector3.zero := by
  have hz : a = Vector3.zero :=
    (Vector3.lengthSq_eq_zero_iff a).mp ((Vector3.length_eq_zero_iff a).mp h)
  rw [hz]
  simp [Vector3.normalize, Vector3.divideScalar, Vector3.multiplyScalar, Vector3.zero]

theorem Vector3.add_sub_cancel (p m : Vector3) : (p.add m).sub p = m := by
  apply Vector3.ext <;> simp [Vector3.add, Vector3.sub]

theorem Vector3.sub_self (p : Vector3) : p.sub p = Vector3.zero := by
  apply Vector3.ext <;> simp [Vector3.sub, Vector3.zero]

theorem Vector3.length_zero : Vector3.zero.length = 0 := by
  simp [Vector3.length, Vector3.zero]

/-- The displacement of one update, by the guard of `updateFreeFly`. -/
theorem displacement_eq (c : CameraController) (dir up : Vector3) :
    displacement c dir up =
      if (freeFlyMove c.input dir up).lengthSq > 0 then
        (freeFlyMove c.input dir up).normalize.multiplyScalar c.input.speed
      else Vector3.zero := by
  unfold displacement update updateFreeFly
  by_cases h : (freeFlyMove c.input dir up).lengthSq > 0
  · simp only [h, if_true]
    exact Vector3.add_sub_cancel _ _
  · simp only [h, if_false]
    exact Vector3.sub_self _

/-! ## Per-frame movement -/

/-- Counterexample to C1: in the constructed state with KeyW and KeyS both held
(two movement keys contribute), looking along -Z, the contributions cancel and
the update adds nothing: the displacement has length 0, not `input.speed`. -/
theorem opposite_keys_no_movement :
    ({ CameraController.new with
        input := { CameraController.new.input with
          keys := fun k => k == "KeyW" || k == "KeyS" } } : CameraController).input.keys "KeyW"
      = true ∧
    (displacement
        { CameraController.new with
          input := { CameraController.new.input with
            keys := fun k => k == "KeyW" || k == "KeyS" } }
        ⟨0, 0, -1⟩ ⟨0, 1, 0⟩).length
      ≠ ({ CameraController.new with
          input := { CameraController.new.input with
            keys := fun k => k == "KeyW" || k == "KeyS" } } : CameraController).input.speed := by
  refine ⟨by decide, ?_⟩
  have hm : freeFlyMove
      ({ CameraController.new with
        input := { CameraController.new.input with
          keys := fun k => k == "KeyW" || k == "KeyS" } } : CameraController).input
      ⟨0, 0, -1⟩ ⟨0, 1, 0⟩ = Vector3.zero := by
    simp [freeFlyMove, CameraController.new, Vector3.add, Vector3.sub, Vector3.zero]
    norm_num
  rw [displacement_eq, hm]
  norm_num [Vector3.lengthSq, Vector3.zero, Vector3.length, CameraController.new, INIT_SPEED]

/-- C1 (amended): for every input state and camera orientation the displacement
one update adds to `yawRig.position` is never longer than `|input.speed|`, and
whenever the accumulated `move` vector is non-zero its Euclidean length is
exactly `|input.speed|` (that is `input.speed` for a non-negative speed),
however many keys or joystick components contributed; when `move` is zero
nothing is added. -/
theorem displacement_length (c : CameraController) (dir up : Vector3) :
    (displacement c dir up).length ≤ |c.input.speed| ∧
    (freeFlyMove c.input dir up ≠ Vector3.zero →
      (displacement c dir up).length = |c.input.speed| ∧
      (0 ≤ c.input.speed → (displacement c dir up).length = c.input.speed)) ∧
    (freeFlyMove c.input dir up = Vector3.zero → displacement c dir up = Vector3.zero) := by
  have key : freeFlyMove c.input dir up ≠ Vector3.zero →
      (displacement c dir up).length = |c.input.speed| := by
    intro hne
    have hsq : 0 < (freeFlyMove c.input dir up).lengthSq :=
      lt_of_le_of_ne (Vector3.lengthSq_nonneg _)
        (fun h => hne ((Vector3.lengthSq_eq_zero_iff _).mp h.symm))
    have hlen : (freeFlyMove c.input dir up).length ≠ 0 :=
      ne_of_gt ((Vector3.length_pos_iff _).mpr hsq)
    rw [displacement_eq, if_pos hsq, Vector3.length_multiplyScalar,
      Vector3.length_normalize _ hlen, mul_one]
  have zero : freeFlyMove c.input dir up = Vector3.zero →
      displacement c dir up = Vector3.zero := by
    intro h0
    rw [displacement_eq, h0]
    simp [Vector3.lengthSq, Vector3.zero]
  refine ⟨?_, fun hne => ⟨key hne, fun hs => ?_⟩, zero⟩
  · by_cases h0 : freeFlyMove c.input dir up = Vector3.zero
    · rw [zero h0, Vector3.length_zero]
      exact abs_nonneg _
    · exact le_of_eq (key h0)
  · rw [key hne, abs_of_nonneg hs]

/-- Witness of C1 (amended): KeyW and KeyD held together, looking along -Z. -/
theorem displacement_length_witness :
    (displacement
        { CameraController.new with
          input := { CameraController.new.input with
            keys := fun k => k == "KeyW" || k == "KeyD" } }
        ⟨0, 0, -1⟩ ⟨0, 1, 0⟩).length = |INIT_SPEED| := by
  refine ((displacement_length
    { CameraController.new with
      input := { CameraController.new.input with
        keys := fun k => k == "KeyW" || k == "KeyD" } }
    ⟨0, 0, -1⟩ ⟨0, 1, 0⟩).2.1 ?_).1
  intro h
  have hz := congrArg Vector3.z h
  simp [freeFlyMove, CameraController.new, Vector3.add, Vector3.sub, Vector3.zero,
    Vector3.normalize, Vector3.divideScalar, Vector3.multiplyScalar, Vector3.length,
    Vector3.crossVectors] at hz

/-- With only KeyW held and the joystick at rest, `move` is `forward`. -/
theorem freeFlyMove_forward_only (input : InputState) (dir up : Vector3)
    (hk : ∀ k, input.keys k = true ↔ k = "KeyW") (hj : input.joystickVec = ⟨0, 0⟩) :
    freeFlyMove input dir up = dir.normalize := by
  have hW : input.keys "KeyW" = true := (hk "KeyW").mpr rfl
  have hoff : ∀ k, k ≠ "KeyW" → input.keys k = false := by
    intro k hne
    cases h : input.keys k
    · rfl
    · exact absurd ((hk k).mp h) hne
  have hS := hoff "KeyS" (by decide)
  have hD := hoff "KeyD" (by decide)
  have hA := hoff "KeyA" (by decide)
  have hE := hoff "KeyE" (by decide)
  have hQ := hoff "KeyQ" (by decide)
  have hDn := hoff "ArrowDown" (by decide)
  have hR := hoff "ArrowRight" (by decide)
  have hL := hoff "ArrowLeft" (by decide)
  have hx : ¬ (|input.joystickVec.x| > 0.01) := by
    rw [hj]
    norm_num
  have hy : ¬ (|input.joystickVec.y| > 0.01) := by
    rw [hj]
    norm_num
  unfold freeFlyMove
  simp only [hW, hS, hD, hA, hE, hQ, hDn, hR, hL, hx, hy, Bool.true_or, Bool.or_self,
    if_true, if_false, Bool.false_eq_true]
  apply Vector3.ext <;> simp [Vector3.add, Vector3.zero]

/-- The displacement when only KeyW is held and the joystick is at rest. -/
theorem displacement_forward_only (c : CameraController) (dir up : Vector3)
    (hk : ∀ k, c.input.keys k = true ↔ k = "KeyW") (hj : c.input.joystickVec = ⟨0, 0⟩) :
    displacement c dir up = dir.normalize.multiplyScalar c.input.speed := by
  rw [displacement_eq, freeFlyMove_forward_only c.input dir up hk hj]
  by_cases h0 : dir.length = 0
  · have hz := Vector3.normalize_of_length_zero dir h0
    rw [hz]
    simp [Vector3.lengthSq, Vector3.zero, Vector3.multiplyScalar]
  · have h1 := Vector3.length_normalize dir h0
    have hsq : dir.normalize.lengthSq > 0 := by
      apply (Vector3.length_pos_iff _).mp
      rw [h1]
      exact one_pos
    rw [if_pos hsq, Vector3.normalize_of_length_one _ h1]

/-- C6: with only the forward key (KeyW) held, the joystick at (0, 0) and
speed s, one update call changes `yawRig.position` by exactly s · forward,
where forward is the camera's normalized world direction, for every camera
orientation; with s = 0.01 the move has length 0.01. -/
theorem forward_key_displacement (c : CameraController) (delta : ℝ) (dir up : Vector3)
    (hk : ∀ k, c.input.keys k = true ↔ k = "KeyW") (hj : c.input.joystickVec = ⟨0, 0⟩) :
    (update c delta dir up).yawRig.position
      = c.yawRig.position.add (dir.normalize.multiplyScalar c.input.speed) ∧
    (update c delta dir up).yawRig.position.sub c.yawRig.position
      = dir.normalize.multiplyScalar c.input.speed ∧
    (c.input.speed = 0.01 → dir.length ≠ 0 →
      ((update c delta dir up).yawRig.position.sub c.yawRig.position).length = 0.01) := by
  have hd := displacement_forward_only c dir up hk hj
  have hd2 : (update c delta dir up).yawRig.position.sub c.yawRig.position
      = dir.normalize.multiplyScalar c.input.speed := hd
  refine ⟨?_, hd2, ?_⟩
  · have hpos : (update c delta dir up).yawRig.position
        = c.yawRig.position.add
            ((update c delta dir up).yawRig.position.sub c.yawRig.position) := by
      apply Vector3.ext <;> simp [Vector3.add, Vector3.sub]
    rw [hpos, hd2]
  · intro hs h0
    rw [hd2, Vector3.length_multiplyScalar, Vector3.length_normalize dir h0, hs]
    norm_num

/-- Witness of C6: the constructed controller (speed 0.01) with KeyW held,
looking along -Z. -/
theorem forward_key_displacement_witness :
    (update
        { CameraController.new with
          input := { CameraController.new.input with keys := fun k => k == "KeyW" } }
        0 ⟨0, 0, -1⟩ ⟨0, 1, 0⟩).yawRig.position
      = (⟨2, 2, 5⟩ : Vector3).add
          ((⟨0, 0, -1⟩ : Vector3).normalize.multiplyScalar INIT_SPEED) :=
  (forward_key_displacement
    { CameraController.new with
      input := { CameraController.new.input with keys := fun k => k == "KeyW" } }
    0 ⟨0, 0, -1⟩ ⟨0, 1, 0⟩ (by intro k; simp) rfl).1

/-- Counterexample to C7: in the constructed state with only KeyW held
(neither KeyE nor KeyQ), a camera pitched upwards with world direction
(0, 3/5, -4/5) rises by 0.006 in one update: the Y-component of the
displacement is not 0. -/
theorem pitched_forward_changes_height :
    ({ CameraController.new with
        input := { CameraController.new.input with
          keys := fun k => k == "KeyW" } } : CameraController).input.keys "KeyE" = false ∧
    ({ CameraController.new with
        input := { CameraController.new.input with
          keys := fun k => k == "KeyW" } } : CameraController).input.keys "KeyQ" = false ∧
    (displacement
        { CameraController.new with
          input := { CameraController.new.input with keys := fun k => k == "KeyW" } }
        ⟨0, 3 / 5, -4 / 5⟩ ⟨0, 1, 0⟩).y = 0.006 ∧
    (displacement
        { CameraController.new with
          input := { CameraController.new.input with keys := fun k => k == "KeyW" } }
        ⟨0, 3 / 5, -4 / 5⟩ ⟨0, 1, 0⟩).y ≠ 0 := by
  have hlen : (⟨0, 3 / 5, -4 / 5⟩ : Vector3).length = 1 := by
    unfold Vector3.length
    have h : (0 : ℝ) * 0 + 3 / 5 * (3 / 5) + -4 / 5 * (-4 / 5) = 1 := by norm_num
    show Real.sqrt ((0 : ℝ) * 0 + 3 / 5 * (3 / 5) + -4 / 5 * (-4 / 5)) = 1
    rw [h, Real.sqrt_one]
  have hd := displacement_forward_only
    { CameraController.new with
      input := { CameraController.new.input with keys := fun k => k == "KeyW" } }
    ⟨0, 3 / 5, -4 / 5⟩ ⟨0, 1, 0⟩ (by intro k; simp) rfl
  rw [Vector3.normalize_of_length_one _ hlen] at hd
  have hy : (displacement
        { CameraController.new with
          input := { CameraController.new.input with keys := fun k => k == "KeyW" } }
        ⟨0, 3 / 5, -4 / 5⟩ ⟨0, 1, 0⟩).y = 0.006 := by
    rw [hd]
    norm_num [Vector3.multiplyScalar, CameraController.new, INIT_SPEED]
  refine ⟨by decide, by decide, hy, ?_⟩
  rw [hy]
  norm_num

theorem Vector3.normalize_y_eq_zero_iff (a : Vector3) : a.normalize.y = 0 ↔ a.y = 0 := by
  have hden : (1 / (if a.length = 0 then 1 else a.length)) ≠ 0 := by
    split_ifs with h
    · norm_num
    · exact one_div_ne_zero h
  show a.y * (1 / (if a.length = 0 then 1 else a.length)) = 0 ↔ a.y = 0
  constructor
  · intro h
    rcases mul_eq_zero.mp h with h1 | h1
    · exact h1
    · exact absurd h1 hden
  · intro h
    rw [h, zero_mul]

/-- The Y-component of `move` when neither KeyE nor KeyQ is held and
`camera.up` is vertical: `right` is horizontal, so only the `forward` part
contributes. -/
theorem freeFlyMove_y (input : InputState) (dir up : Vector3)
    (hE : input.keys "KeyE" = false) (hQ : input.keys "KeyQ" = false)
    (hux : up.x = 0) (huz : up.z = 0) :
    (freeFlyMove input dir up).y = forwardAmount input * dir.normalize.y := by
  have hr : (Vector3.crossVectors dir.normalize up).normalize.y = 0 := by
    simp [Vector3.normalize, Vector3.divideScalar, Vector3.multiplyScalar,
      Vector3.crossVectors, hux, huz]
  unfold freeFlyMove forwardAmount
  simp only [hE, hQ, if_false, Bool.false_eq_true]
  split_ifs <;>
    simp [Vector3.add, Vector3.sub, Vector3.multiplyScalar, Vector3.zero, hr] <;>
    ring

/-- The Y-component of the displacement vanishes exactly when the Y-component
of `move` does or the speed is 0. -/
theorem displacement_y_eq_zero_iff (c : CameraController) (dir up : Vector3) :
    (displacement c dir up).y = 0 ↔
      ((freeFlyMove c.input dir up).y = 0 ∨ c.input.speed = 0) := by
  rw [displacement_eq]
  by_cases hsq : (freeFlyMove c.input dir up).lengthSq > 0
  · rw [if_pos hsq]
    have hlen : (freeFlyMove c.input dir up).length ≠ 0 :=
      ne_of_gt ((Vector3.length_pos_iff _).mpr hsq)
    show (freeFlyMove c.input dir up).y
        * (1 / (if (freeFlyMove c.input dir up).length = 0 then 1
            else (freeFlyMove c.input dir up).length)) * c.input.speed = 0 ↔ _
    rw [if_neg hlen, mul_eq_zero, mul_eq_zero]
    constructor
    · rintro ((h | h) | h)
      · exact Or.inl h
      · exact absurd h (one_div_ne_zero hlen)
      · exact Or.inr h
    · rintro (h | h)
      · exact Or.inl (Or.inl h)
      · exact Or.inr h
  · rw [if_neg hsq]
    have h0 : (freeFlyMove c.input dir up).lengthSq = 0 :=
      le_antisymm (not_lt.mp hsq) (Vector3.lengthSq_nonneg _)
    have hz := (Vector3.lengthSq_eq_zero_iff _).mp h0
    constructor
    · intro _
      left
      rw [hz]
      rfl
    · intro _
      rfl

/-- C7 (amended): when neither KeyE nor KeyQ is held and `camera.up` is
vertical, the Y-component of the displacement that one update call adds to
`yawRig.position` is 0 exactly when the net forward/backward contribution
(KeyW or ArrowUp, minus KeyS or ArrowDown, plus the joystick's y outside the
dead zone) is zero, or the camera's world direction is horizontal, or the
speed is 0.  In particular strafing with KeyA, KeyD, the left and right arrows
or the joystick's x keeps the height at every pitch, and so does any movement
of a level camera. -/
theorem height_kept_iff (c : CameraController) (dir up : Vector3)
    (hE : c.input.keys "KeyE" = false) (hQ : c.input.keys "KeyQ" = false)
    (hux : up.x = 0) (huz : up.z = 0) :
    ((displacement c dir up).y = 0 ↔
      (forwardAmount c.input = 0 ∨ dir.y = 0 ∨ c.input.speed = 0)) ∧
    ((update c 0 dir up).yawRig.position.y = c.yawRig.position.y ↔
      (forwardAmount c.input = 0 ∨ dir.y = 0 ∨ c.input.speed = 0)) ∧
    (c.input.keys "KeyW" = false → c.input.keys "ArrowUp" = false →
      c.input.keys "KeyS" = false → c.input.keys "ArrowDown" = false →
      |c.input.joystickVec.y| ≤ 0.01 → (displacement c dir up).y = 0) ∧
    (dir.y = 0 → (displacement c dir up).y = 0) := by
  have hm := freeFlyMove_y c.input dir up hE hQ hux huz
  have hiff : (displacement c dir up).y = 0 ↔
      (forwardAmount c.input = 0 ∨ dir.y = 0 ∨ c.input.speed = 0) := by
    rw [displacement_y_eq_zero_iff, hm, mul_eq_zero, Vector3.normalize_y_eq_zero_iff, or_assoc]
  refine ⟨hiff, ?_, ?_, ?_⟩
  · have h2 : (displacement c dir up).y
        = (update c 0 dir up).yawRig.position.y - c.yawRig.position.y := rfl
    rw [← hiff, h2, sub_eq_zero]
  · intro hW hUp hS hDn hj
    apply hiff.mpr
    left
    unfold forwardAmount
    simp [hW, hUp, hS, hDn, not_lt.mpr hj]
  · intro hd
    exact hiff.mpr (Or.inr (Or.inl hd))

/-- Witness of C7 (amended): a camera pitched upwards with world direction
(0, 3/5, -4/5) and the default up vector; strafing with KeyD keeps the height,
flying forward with KeyW does not. -/
theorem height_kept_iff_witness :
    (displacement
        { CameraController.new with
          input := { CameraController.new.input with keys := fun k => k == "KeyD" } }
        ⟨0, 3 / 5, -4 / 5⟩ ⟨0, 1, 0⟩).y = 0 ∧
    (displacement
        { CameraController.new with
          input := { CameraController.new.input with keys := fun k => k == "KeyW" } }
        ⟨0, 3 / 5, -4 / 5⟩ ⟨0, 1, 0⟩).y ≠ 0 := by
  constructor
  · exact (height_kept_iff
      { CameraController.new with
        input := { CameraController.new.input with keys := fun k => k == "KeyD" } }
      ⟨0, 3 / 5, -4 / 5⟩ ⟨0, 1, 0⟩ (by decide) (by decide) rfl rfl).2.2.1
      (by decide) (by decide) (by decide) (by decide)
      (by norm_num [CameraController.new])
  · intro h
    have h3 := (height_kept_iff
      { CameraController.new with
        input := { CameraController.new.input with keys := fun k => k == "KeyW" } }
      ⟨0, 3 / 5, -4 / 5⟩ ⟨0, 1, 0⟩ (by decide) (by decide) rfl rfl).1.mp h
    rcases h3 with h4 | h4 | h4
    · simp [forwardAmount, CameraController.new] at h4
    · norm_num at h4
    · norm_num [CameraController.new, INIT_SPEED] at h4

/-! ## Joystick geometry -/

theorem hypot_eq_abs (x y : ℝ) : hypot x y = Complex.abs ⟨x, y⟩ := by
  rw [Complex.abs_apply, Complex.normSq_mk]
  unfold hypot
  congr 1
  ring

theorem hypot_nonneg (x y : ℝ) : 0 ≤ hypot x y := Real.sqrt_nonneg _

theorem hypot_mul_cos (x y : ℝ) : hypot x y * Real.cos (atan2 y x) = x := by
  by_cases h : (⟨x, y⟩ : ℂ) = 0
  · have hx : x = 0 := congrArg Complex.re h
    have hy : y = 0 := congrArg Complex.im h
    subst hx
    subst hy
    simp [hypot]
  · have habs : Complex.abs ⟨x, y⟩ ≠ 0 := by
      simpa using h
    unfold atan2
    rw [Complex.cos_arg h, hypot_eq_abs]
    field_simp

theorem hypot_mul_sin (x y : ℝ) : hypot x y * Real.sin (atan2 y x) = y := by
  by_cases h : (⟨x, y⟩ : ℂ) = 0
  · have hx : x = 0 := congrArg Complex.re h
    have hy : y = 0 := congrArg Complex.im h
    subst hx
    subst hy
    simp [hypot]
  · have habs : Complex.abs ⟨x, y⟩ ≠ 0 := by
      simpa using h
    unfold atan2
    rw [Complex.sin_arg, hypot_eq_abs]
    field_simp

theorem hypot_scaled_angle (r t : ℝ) : hypot (r * Real.cos t) (r * Real.sin t) = |r| := by
  unfold hypot
  have h : (r * Real.cos t) ^ 2 + (r * Real.sin t) ^ 2 = r ^ 2 := by
    have := Real.cos_sq_add_sin_sq t
    nlinarith
  rw [h, Real.sqrt_sq_eq_abs]

theorem abs_le_hypot_left (x y : ℝ) : |x| ≤ hypot x y := by
  unfold hypot
  apply Real.abs_le_sqrt
  nlinarith [sq_nonneg y]

theorem abs_le_hypot_right (x y : ℝ) : |y| ≤ hypot x y := by
  unfold hypot
  apply Real.abs_le_sqrt
  nlinarith [sq_nonneg x]

/-- The joystick vector and thumb offset written by `moveThumb` when the touch
is within `maxDist` of the centre. -/
theorem moveThumb_inside (l : Layout) (c : CameraController) (pageX pageY : ℝ)
    (h : hypot (pageX - l.centerX) (pageY - l.centerY) ≤ l.maxDist) :
    (moveThumb l c pageX pageY).thumbTransform
      = ⟨pageX - l.centerX, pageY - l.centerY⟩ ∧
    (moveThumb l c pageX pageY).input.joystickVec
      = ⟨(pageX - l.centerX) / l.maxDist, -((pageY - l.centerY) / l.maxDist)⟩ := by
  have hn : ¬ (hypot (pageX - l.centerX) (pageY - l.centerY) > l.maxDist) := not_lt.mpr h
  unfold Layout.centerX Layout.centerY Layout.maxDist at *
  simp only [moveThumb, hn, if_false, hypot_mul_cos, hypot_mul_sin, and_self]

/-- The joystick vector and thumb offset written by `moveThumb` when the touch
is further than `maxDist` from the centre. -/
theorem moveThumb_outside (l : Layout) (c : CameraController) (pageX pageY : ℝ)
    (h : hypot (pageX - l.centerX) (pageY - l.centerY) > l.maxDist) :
    (moveThumb l c pageX pageY).thumbTransform
      = ⟨l.maxDist * Real.cos (atan2 (pageY - l.centerY) (pageX - l.centerX)),
         l.maxDist * Real.sin (atan2 (pageY - l.centerY) (pageX - l.centerX))⟩ ∧
    (moveThumb l c pageX pageY).input.joystickVec
      = ⟨l.maxDist * Real.cos (atan2 (pageY - l.centerY) (pageX - l.centerX)) / l.maxDist,
         -(l.maxDist * Real.sin (atan2 (pageY - l.centerY) (pageX - l.centerX))
            / l.maxDist)⟩ := by
  unfold Layout.centerX Layout.centerY Layout.maxDist at *
  simp only [moveThumb, h, if_true, and_self]

/-- The joystick vector is the offset divided by `maxDist` when the touch is
within `maxDist` of the centre, and the unit vector of the offset beyond. -/
theorem joystickVec_cases (l : Layout) (c : CameraController) (pageX pageY : ℝ)
    (hmax : 0 < l.maxDist) :
    (hypot (pageX - l.centerX) (pageY - l.centerY) ≤ l.maxDist →
      (moveThumb l c pageX pageY).input.joystickVec
        = ⟨(pageX - l.centerX) / l.maxDist, -(pageY - l.centerY) / l.maxDist⟩) ∧
    (hypot (pageX - l.centerX) (pageY - l.centerY) > l.maxDist →
      (moveThumb l c pageX pageY).input.joystickVec
        = ⟨(pageX - l.centerX) / hypot (pageX - l.centerX) (pageY - l.centerY),
           -(pageY - l.centerY) / hypot (pageX - l.centerX) (pageY - l.centerY)⟩) := by
  constructor
  · intro h
    rw [(moveThumb_inside l c pageX pageY h).2, neg_div]
  · intro h
    have hd : hypot (pageX - l.centerX) (pageY - l.centerY) ≠ 0 :=
      ne_of_gt (lt_trans hmax h)
    have hm : l.maxDist ≠ 0 := ne_of_gt hmax
    have hc := hypot_mul_cos (pageX - l.centerX) (pageY - l.centerY)
    have hs := hypot_mul_sin (pageX - l.centerX) (pageY - l.centerY)
    rw [(moveThumb_outside l c pageX pageY h).2]
    apply Vec2.ext
    · show l.maxDist * Real.cos (atan2 (pageY - l.centerY) (pageX - l.centerX)) / l.maxDist
        = (pageX - l.centerX) / hypot (pageX - l.centerX) (pageY - l.centerY)
      rw [mul_div_cancel_left₀ _ hm, eq_div_iff hd, mul_comm]
      exact hc
    · show -(l.maxDist * Real.sin (atan2 (pageY - l.centerY) (pageX - l.centerX)) / l.maxDist)
        = -(pageY - l.centerY) / hypot (pageX - l.centerX) (pageY - l.centerY)
      rw [mul_div_cancel_left₀ _ hm, neg_div, neg_inj, eq_div_iff hd, mul_comm]
      exact hs

/-- Counterexample to C4: a thumb wider than its base (base 10 px wide, thumb
20 px wide, so `maxDist` is -5) and a touch at the centre of the base: the
thumb is put 5 px from the centre, further than `maxDist`. -/
theorem wide_thumb_offset_exceeds_maxDist :
    (Layout.mk ⟨0, 0, 10, 10⟩ 20).maxDist = -5 ∧
    hypot (moveThumb ⟨⟨0, 0, 10, 10⟩, 20⟩ CameraController.new 5 5).thumbTransform.x
        (moveThumb ⟨⟨0, 0, 10, 10⟩, 20⟩ CameraController.new 5 5).thumbTransform.y = 5 ∧
    ¬ (hypot (moveThumb ⟨⟨0, 0, 10, 10⟩, 20⟩ CameraController.new 5 5).thumbTransform.x
        (moveThumb ⟨⟨0, 0, 10, 10⟩, 20⟩ CameraController.new 5 5).thumbTransform.y
      ≤ (Layout.mk ⟨0, 0, 10, 10⟩ 20).maxDist) := by
  have hm : (Layout.mk ⟨0, 0, 10, 10⟩ 20).maxDist = -5 := by
    norm_num [Layout.maxDist]
  have hout : hypot (5 - (Layout.mk ⟨0, 0, 10, 10⟩ 20).centerX)
      (5 - (Layout.mk ⟨0, 0, 10, 10⟩ 20).centerY) > (Layout.mk ⟨0, 0, 10, 10⟩ 20).maxDist := by
    rw [hm]
    exact lt_of_lt_of_le (by norm_num) (hypot_nonneg _ _)
  have ht := (moveThumb_outside ⟨⟨0, 0, 10, 10⟩, 20⟩ CameraController.new 5 5 hout).1
  have hlen : hypot (moveThumb ⟨⟨0, 0, 10, 10⟩, 20⟩ CameraController.new 5 5).thumbTransform.x
      (moveThumb ⟨⟨0, 0, 10, 10⟩, 20⟩ CameraController.new 5 5).thumbTransform.y = 5 := by
    rw [ht]
    show hypot (_ * Real.cos _) (_ * Real.sin _) = 5
    rw [hypot_scaled_angle, hm]
    norm_num
  refine ⟨hm, hlen, ?_⟩
  rw [hlen, hm]
  norm_num

/-- C4 (amended): when `maxDist = baseWidth/2 - thumbWidth/2` is positive,
after every call `moveThumb(pageX, pageY)` both components of
`input.joystickVec` lie in [-1, 1] and the thumb's visual offset
(thumbX, thumbY) has Euclidean length at most `maxDist`. -/
theorem moveThumb_bounds (l : Layout) (c : CameraController) (pageX pageY : ℝ)
    (hmax : 0 < l.maxDist) :
    (-1 ≤ (moveThumb l c pageX pageY).input.joystickVec.x ∧
      (moveThumb l c pageX pageY).input.joystickVec.x ≤ 1) ∧
    (-1 ≤ (moveThumb l c pageX pageY).input.joystickVec.y ∧
      (moveThumb l c pageX pageY).input.joystickVec.y ≤ 1) ∧
    hypot (moveThumb l c pageX pageY).thumbTransform.x
      (moveThumb l c pageX pageY).thumbTransform.y ≤ l.maxDist := by
  have hxa := abs_le_hypot_left (pageX - l.centerX) (pageY - l.centerY)
  have hya := abs_le_hypot_right (pageX - l.centerX) (pageY - l.centerY)
  have hcases := joystickVec_cases l c pageX pageY hmax
  rcases le_or_lt (hypot (pageX - l.centerX) (pageY - l.centerY)) l.maxDist with h | h
  · rw [hcases.1 h, (moveThumb_inside l c pageX pageY h).1]
    have hx : |(pageX - l.centerX) / l.maxDist| ≤ 1 := by
      rw [abs_div, abs_of_pos hmax, div_le_one hmax]
      exact le_trans hxa h
    have hy : |-(pageY - l.centerY) / l.maxDist| ≤ 1 := by
      rw [abs_div, abs_neg, abs_of_pos hmax, div_le_one hmax]
      exact le_trans hya h
    exact ⟨abs_le.mp hx, abs_le.mp hy, h⟩
  · have hd : 0 < hypot (pageX - l.centerX) (pageY - l.centerY) := lt_trans hmax h
    rw [hcases.2 h, (moveThumb_outside l c pageX pageY h).1]
    have hx : |(pageX - l.centerX) / hypot (pageX - l.centerX) (pageY - l.centerY)| ≤ 1 := by
      rw [abs_div, abs_of_pos hd, div_le_one hd]
      exact hxa
    have hy : |-(pageY - l.centerY) / hypot (pageX - l.centerX) (pageY - l.centerY)| ≤ 1 := by
      rw [abs_div, abs_neg, abs_of_pos hd, div_le_one hd]
      exact hya
    refine ⟨abs_le.mp hx, abs_le.mp hy, ?_⟩
    show hypot (_ * Real.cos _) (_ * Real.sin _) ≤ l.maxDist
    rw [hypot_scaled_angle, abs_of_pos hmax]

/-- Witness of C4 (amended): base 100 px wide at the origin, thumb 40 px wide
(`maxDist` 30), touch far to the lower right. -/
theorem moveThumb_bounds_witness :
    (moveThumb ⟨⟨0, 0, 100, 100⟩, 40⟩ CameraController.new 500 700).input.joystickVec.x ≤ 1 ∧
    hypot (moveThumb ⟨⟨0, 0, 100, 100⟩, 40⟩ CameraController.new 500 700).thumbTransform.x
      (moveThumb ⟨⟨0, 0, 100, 100⟩, 40⟩ CameraController.new 500 700).thumbTransform.y
      ≤ (Layout.mk ⟨0, 0, 100, 100⟩ 40).maxDist :=
  have h := moveThumb_bounds ⟨⟨0, 0, 100, 100⟩, 40⟩ CameraController.new 500 700
    (by norm_num [Layout.maxDist])
  ⟨h.1.2, h.2.2⟩

/-- C10: when `maxDist = baseWidth/2 - thumbWidth/2` is positive and the touch
is at offset (dx, dy) from the base centre with dist = hypot(dx, dy),
`moveThumb` sets `input.joystickVec` to (dx/maxDist, -dy/maxDist) when
dist ≤ maxDist and to (dx/dist, -dy/dist) when dist > maxDist; a touch on the
base's right edge at centre height yields exactly (1, 0). -/
theorem moveThumb_joystickVec (l : Layout) (c : CameraController) (pageX pageY : ℝ)
    (hmax : 0 < l.maxDist) :
    (hypot (pageX - l.centerX) (pageY - l.centerY) ≤ l.maxDist →
      (moveThumb l c pageX pageY).input.joystickVec
        = ⟨(pageX - l.centerX) / l.maxDist, -(pageY - l.centerY) / l.maxDist⟩) ∧
    (hypot (pageX - l.centerX) (pageY - l.centerY) > l.maxDist →
      (moveThumb l c pageX pageY).input.joystickVec
        = ⟨(pageX - l.centerX) / hypot (pageX - l.centerX) (pageY - l.centerY),
           -(pageY - l.centerY) / hypot (pageX - l.centerX) (pageY - l.centerY)⟩) ∧
    (pageX = l.baseRect.right → pageY = l.centerY →
      (moveThumb l c pageX pageY).input.joystickVec = ⟨1, 0⟩) := by
  have hcases := joystickVec_cases l c pageX pageY hmax
  refine ⟨hcases.1, hcases.2, ?_⟩
  intro hX hY
  have hw : (0 : ℝ) ≤ (l.thumbOffsetWidth : ℝ) := Nat.cast_nonneg _
  have hdx : pageX - l.centerX = l.baseRect.width / 2 := by
    rw [hX]
    unfold Rect.right Layout.centerX
    ring
  have hdy : pageY - l.centerY = 0 := by
    rw [hY]
    ring
  have hle : l.maxDist ≤ l.baseRect.width / 2 := by
    unfold Layout.maxDist
    linarith
  have hpos : 0 < l.baseRect.width / 2 := lt_of_lt_of_le hmax hle
  have hdist : hypot (pageX - l.centerX) (pageY - l.centerY) = l.baseRect.width / 2 := by
    rw [hdx, hdy]
    unfold hypot
    rw [zero_pow (by norm_num), add_zero, Real.sqrt_sq (le_of_lt hpos)]
  rcases le_or_lt (hypot (pageX - l.centerX) (pageY - l.centerY)) l.maxDist with h | h
  · rw [hcases.1 h]
    have heq : l.maxDist = l.baseRect.width / 2 := le_antisymm hle (by rw [← hdist]; exact h)
    rw [hdx, hdy, heq]
    apply Vec2.ext
    · exact div_self (ne_of_gt hpos)
    · simp
  · rw [hcases.2 h, hdist, hdx, hdy]
    apply Vec2.ext
    · exact div_self (ne_of_gt hpos)
    · simp

/-- Witness of C10: base 100 px wide at the origin, thumb 40 px wide, touch on
the right edge at centre height. -/
theorem moveThumb_joystickVec_witness :
    (moveThumb ⟨⟨0, 0, 100, 100⟩, 40⟩ CameraController.new 100 50).input.joystickVec = ⟨1, 0⟩ :=
  (moveThumb_joystickVec ⟨⟨0, 0, 100, 100⟩, 40⟩ CameraController.new 100 50
    (by norm_num [Layout.maxDist])).2.2
    (by norm_num [Rect.right]) (by norm_num [Layout.centerY])

/-! ## The pitch invariant -/

/-- A pitch given in degrees is within [-π/2, π/2] after `toRad` exactly when
the degrees are within [-90, 90]. -/
theorem toRad_in_range_iff (deg : ℝ) :
    (-Real.pi / 2 ≤ toRad deg ∧ toRad deg ≤ Real.pi / 2) ↔ (-90 ≤ deg ∧ deg ≤ 90) := by
  have hpi := Real.pi_pos
  unfold toRad
  constructor
  · rintro ⟨h1, h2⟩
    constructor
    · by_contra hlt
      push_neg at hlt
      nlinarith
    · by_contra hlt
      push_neg at hlt
      nlinarith
  · rintro ⟨h1, h2⟩
    constructor <;> nlinarith

/-- Every pitch of the table `VIEWS` is within [-90, 90] degrees. -/
theorem VIEWS_pitch_degrees (name : String) (view : View) (h : VIEWS name = some view) :
    -90 ≤ view.rotation.1 ∧ view.rotation.1 ≤ 90 := by
  unfold VIEWS at h
  split_ifs at h <;> cases h <;> constructor <;> norm_num

/-- The pitch stored by a completed transition is the pitch of the view. -/
theorem goToViewEffect_pitch (c : CameraController) (views : String → Option View)
    (name : String) (view : View) (ticks : List ℝ) (h : views name = some view) :
    (goToViewEffect c views name ticks).input.pitch = toRad view.rotation.1 := by
  simp [goToViewEffect, goToView, h, Tween.run, onComplete, Tween.valuesAt]

/-- The pitch stored by the start-pose placement. -/
theorem placeStartPose_pitch (c : CameraController) :
    (placeStartPose c).input.pitch = toRad (-8.77) := by
  simp [placeStartPose, VIEWS]

/-- C11: `input.pitch ∈ [-π/2, π/2]` is an invariant of the controller: it
holds in the state built by the constructor and is preserved by the mousemove
and touchmove look handlers, by the start-pose placement of index.js and by
the onComplete resynchronisation of `goToView` for every view of `VIEWS`, the
table index.js gives to ViewManager.  Neither of the last two writes clamps:
for an arbitrary table the pitch stored on completion is `toRad` of the
view's pitch, within range exactly when that pitch is within [-90, 90]
degrees. -/
theorem pitch_invariant :
    pitchInRange CameraController.new ∧
    (∀ (c : CameraController) (dx dy : ℝ), pitchInRange c → pitchInRange (mousemove c dx dy)) ∧
    (∀ (l : Layout) (c c2 : CameraController) (touches : List Touch),
      pitchInRange c → touchmove l c touches = some c2 → pitchInRange c2) ∧
    (∀ c : CameraController, pitchInRange (placeStartPose c)) ∧
    (∀ (c : CameraController) (name : String) (t : Tween),
      goToView c VIEWS name = some t → pitchInRange (onComplete c (t.valuesAt 1))) ∧
    (∀ (c : CameraController) (name : String) (ticks : List ℝ),
      pitchInRange c → pitchInRange (goToViewEffect c VIEWS name ticks)) ∧
    (∀ (views : String → Option View) (c : CameraController) (name : String) (view : View)
        (ticks : List ℝ), views name = some view →
      (pitchInRange (goToViewEffect c views name ticks) ↔
        (-90 ≤ view.rotation.1 ∧ view.rotation.1 ≤ 90))) := by
  have hpi := half_pi_pos
  refine ⟨?_, ?_, ?_, ?_, ?_, ?_, ?_⟩
  · constructor
    · show -Real.pi / 2 ≤ (0 : ℝ)
      linarith
    · show (0 : ℝ) ≤ Real.pi / 2
      linarith
  · intro c dx dy hc
    cases hrot : c.input.rotating
    · have : mousemove c dx dy = c := by simp [mousemove, hrot]
      rw [this]
      exact hc
    · have hp : (mousemove c dx dy).input.pitch
          = clampPitch (c.input.pitch - dy * c.input.lookSpeed) := by
        simp [mousemove, hrot]
      unfold pitchInRange
      rw [hp]
      exact ⟨clampPitch_lower _, clampPitch_upper _⟩
  · intro l c c2 touches hc h
    unfold touchmove at h
    split_ifs at h
    · cases touches with
      | nil => simp at h
      | cons touch rest =>
        simp only [Option.some.injEq] at h
        subst h
        exact ⟨clampPitch_lower _, clampPitch_upper _⟩
    · simp only [Option.some.injEq] at h
      subst h
      exact hc
  · intro c
    unfold pitchInRange
    rw [placeStartPose_pitch]
    exact (toRad_in_range_iff _).mpr (by constructor <;> norm_num)
  · intro c name t ht
    cases hv : VIEWS name with
    | none => simp [goToView, hv] at ht
    | some view =>
      have hrx : (onComplete c (t.valuesAt 1)).input.pitch = toRad view.rotation.1 := by
        simp only [goToView, hv, Option.some.injEq] at ht
        subst ht
        simp [onComplete, Tween.valuesAt]
      unfold pitchInRange
      rw [hrx]
      exact (toRad_in_range_iff _).mpr (VIEWS_pitch_degrees name view hv)
  · intro c name ticks hc
    cases hv : VIEWS name with
    | none =>
      have : goToViewEffect c VIEWS name ticks = c := by
        simp [goToViewEffect, goToView, hv]
      rw [this]
      exact hc
    | some view =>
      unfold pitchInRange
      rw [goToViewEffect_pitch c VIEWS name view ticks hv]
      exact (toRad_in_range_iff _).mpr (VIEWS_pitch_degrees name view hv)
  · intro views c name view ticks hv
    unfold pitchInRange
    rw [goToViewEffect_pitch c views name view ticks hv]
    exact toRad_in_range_iff _

/-- Witness of C11: the constructed controller is placed at the start pose,
sent to the view "explore" and then turned by a mouse look of a million
pixels: the stored pitch is within range after each step. -/
theorem pitch_invariant_witness :
    pitchInRange (placeStartPose CameraController.new) ∧
    pitchInRange (goToViewEffect (placeStartPose CameraController.new) VIEWS "explore" [0.5]) ∧
    pitchInRange
      (mousemove
        { goToViewEffect (placeStartPose CameraController.new) VIEWS "explore" [0.5] with
          input :=
            { (goToViewEffect (placeStartPose CameraController.new) VIEWS "explore" [0.5]).input
              with rotating := true } }
        0 (-1000000)) :=
  have h1 := pitch_invariant.2.2.2.1 CameraController.new
  have h2 := pitch_invariant.2.2.2.2.2.1 (placeStartPose CameraController.new) "explore" [0.5] h1
  ⟨h1, h2, pitch_invariant.2.1 _ 0 (-1000000) h2⟩

end

end FlyCam
